import Mathlib

/-!
Verification of the LectureSplit pipeline (src/lecture_split/main.py).

The repository scans a directory of lecture videos, detects scene boundaries,
and extracts each scene's audio with ffmpeg.  We embed:

* the data model (`FrameTimecode`, `Scene`);
* the Scene Detector state machine and Segment Builder — these live in the
  external scenedetect library (only their caller `detect_scenes` is in src),
  so they are modelled from the spec where noted;
* `extract_split_audio`, including its exact ffmpeg command construction,
  directly from the source (note the fail-fast break is commented out there);
* the resource discipline of `detect_scenes` (try/finally release);
* the batch entry point `main` (no per-video exception handling in the source).
-/

set_option maxRecDepth 4000

namespace LectureSplit

/-- A point in time within a video: frame index plus frames-per-second.
Embeds scenedetect's FrameTimecode as used by main.py. -/
structure FrameTimecode where
  frames : Nat
  fps : Nat
  deriving Repr, DecidableEq

def pad2 (n : Nat) : String :=
  if n < 10 then "0" ++ toString n else toString n

def pad3 (n : Nat) : String :=
  if n < 10 then "00" ++ toString n
  else if n < 100 then "0" ++ toString n
  else toString n

/-- Format a timecode as HH:MM:SS.mmm, as scenedetect's get_timecode does
(total elapsed time computed from frame count and frame rate). -/
def FrameTimecode.get_timecode (t : FrameTimecode) : String :=
  let totalMs := t.frames * 1000 / t.fps
  let totalS := totalMs / 1000
  pad2 (totalS / 3600) ++ ":" ++ pad2 (totalS / 60 % 60) ++ ":" ++
    pad2 (totalS % 60) ++ "." ++ pad3 (totalMs % 1000)

/-- Subtracting two timecodes yields a duration timecode; scenedetect clamps
at zero, which Nat subtraction matches. -/
def FrameTimecode.sub (a b : FrameTimecode) : FrameTimecode :=
  ⟨a.frames - b.frames, a.fps⟩

/-- A scene is an ordered (start, end) pair of timecodes, as returned by
scene_manager.get_scene_list. -/
abbrev Scene := FrameTimecode × FrameTimecode

/-- Modelled from the spec: the Scene Detector state machine (§4.2).  The
implementation (scenedetect's ContentDetector) is an external library, not in
src; only its construction in `detect_scenes` is.  State is
`last_boundary_frame` (initially 0); a boundary is recorded at frame `f`
exactly when its change score exceeds the threshold and
`f - last_boundary_frame >= min_scene_length`. -/
def detectBoundaries (threshold min_scene_length : Int) :
    List (Nat × Int) → Nat → List Nat
  | [], _ => []
  | (f, s) :: rest, last =>
    if s > threshold ∧ (f : Int) - (last : Int) ≥ min_scene_length then
      f :: detectBoundaries threshold min_scene_length rest f
    else
      detectBoundaries threshold min_scene_length rest last

/-- Modelled from the spec: the Frame Scanner (§4.1) feeds every
(frame_skip+1)-th frame's change score, in increasing frame order, to the
detector.  The per-frame scores themselves come from the external
frame-differencing capability. -/
def scanFrames (frame_skip : Nat) (scores : List Int) : List (Nat × Int) :=
  scores.enum.filter fun p => p.1 % (frame_skip + 1) == 0

/-- Modelled from the spec: the full boundary index sequence — conceptually
starting at frame 0 and ending at the final frame (§4.2 edge policy). -/
def boundaryList (endFrame : Nat) (bs : List Nat) : List Nat :=
  0 :: (bs ++ [endFrame])

/-- Consecutive pairs of a boundary sequence. -/
def pairUp : List Nat → List (Nat × Nat)
  | a :: b :: rest => (a, b) :: pairUp (b :: rest)
  | _ => []

/-- Modelled from the spec: the Segment Builder (§4.3) converts consecutive
boundary pairs into timecoded scenes. -/
def buildScenes (fps endFrame : Nat) (bs : List Nat) : List Scene :=
  (pairUp (boundaryList endFrame bs)).map fun p => (⟨p.1, fps⟩, ⟨p.2, fps⟩)

/-- Contiguity check: scene[i].end == scene[i+1].start for all i. -/
def contiguousOk : List Scene → Bool
  | s1 :: s2 :: rest => (s1.2 == s2.1) && contiguousOk (s2 :: rest)
  | _ => true

/-- Span check: first scene starts at frame 0, last scene ends at the final
frame. -/
def spansOk (endFrame : Nat) (scenes : List Scene) : Bool :=
  match scenes.head?, scenes.getLast? with
  | some s0, some s1 => (s0.1.frames == 0) && (s1.2.frames == endFrame)
  | _, _ => false

/-- Modelled from the spec: a violated segment invariant is an internal-logic
fault (§4.3, §7). -/
inductive SegmentFault where
  | invariantViolation
  deriving Repr, DecidableEq

/-- Modelled from the spec: the Segment Builder asserts contiguity and span
before returning, failing loudly rather than self-healing (§4.3). -/
def checkScenes (endFrame : Nat) (scenes : List Scene) :
    Except SegmentFault (List Scene) :=
  if contiguousOk scenes && spansOk endFrame scenes then Except.ok scenes
  else Except.error SegmentFault.invariantViolation

/-- Modelled from the spec: the Segment Builder pipeline — build the scenes
from the boundary sequence, then run the invariant check. -/
def segmentBuild (fps endFrame : Nat) (bs : List Nat) :
    Except SegmentFault (List Scene) :=
  checkScenes endFrame (buildScenes fps endFrame bs)

/-- Errors surfaced by the pipeline.  `ffmpegMissing` embeds the
RuntimeError raised by extract_split_audio when is_ffmpeg_available() is
False; `videoOpenFailure` the scenedetect VideoOpenFailure when the file
cannot be decoded; `detectFailure` any exception thrown inside the detection
try-block. -/
inductive RunError where
  | ffmpegMissing
  | videoOpenFailure
  | detectFailure
  deriving Repr, DecidableEq

/-- The ffmpeg argument list built per scene in extract_split_audio:
`['ffmpeg']`, plus `['-v','quiet']` when suppressed, else `['-v','error']`
for every call after the first; then seek/input and duration/output. -/
def buildCallList (video_abs stem output_dir : String) (suppress_output : Bool)
    (i : Nat) (scene : Scene) : List String :=
  ["ffmpeg"]
    ++ (if suppress_output then ["-v", "quiet"]
        else if i > 0 then ["-v", "error"] else [])
    ++ ["-y", "-ss", scene.1.get_timecode, "-i", video_abs]
    ++ ["-strict", "-2", "-t", (scene.2.sub scene.1).get_timecode,
        output_dir ++ "/" ++ stem ++ "/" ++ stem ++ "_" ++ toString (i + 1)
          ++ ".mp3"]

/-- The extraction loop of extract_split_audio: one blocking ffmpeg call per
scene, collecting (command, exit code).  The source's `if ret_val != 0:
break` is commented out, so the loop never stops early in either mode. -/
def extractLoop (video_abs stem output_dir : String) (suppress_output : Bool)
    (exitCode : Nat → Int) : List Scene → Nat → List (List String × Int)
  | [], _ => []
  | sc :: rest, i =>
    (buildCallList video_abs stem output_dir suppress_output i sc, exitCode i)
      :: extractLoop video_abs stem output_dir suppress_output exitCode rest
          (i + 1)

/-- extract_split_audio: raises (RuntimeError) when ffmpeg is unavailable,
otherwise runs the extraction loop over the whole scene list.  `exitCode i`
is the external tool's exit status for the i-th call. -/
def extract_split_audio (ffmpegAvailable : Bool)
    (video_abs stem output_dir : String) (scene_list : List Scene)
    (exitCode : Nat → Int) (suppress_output : Bool) :
    Except RunError (List (List String × Int)) :=
  if ffmpegAvailable = false then Except.error RunError.ffmpegMissing
  else Except.ok
    (extractLoop video_abs stem output_dir suppress_output exitCode
      scene_list 0)

/-- Modelled from the spec: the external tool's contract — exit code 0 means
success and the output file (the command's last argument) is produced. -/
def filesProduced (calls : List (List String × Int)) : List String :=
  (calls.filter fun c => c.2 == 0).filterMap fun c => c.1.getLast?

/-- Environment-level description of one input video: its name stem and
absolute path, whether cv2 can open it (VideoManager construction), whether
an exception is thrown mid-detection, and the external scoring capability's
per-frame change scores plus the video's final frame and frame rate. -/
structure Video where
  stem : String
  absPath : String
  decodable : Bool
  detectRaises : Bool
  scores : List Int
  endFrame : Nat
  fps : Nat
  deriving Repr, DecidableEq

/-- Resource events on the video-decoding handle held by detect_scenes. -/
inductive RES where
  | acquire
  | release
  deriving Repr, DecidableEq

/-- detect_scenes from the source: constructs the VideoManager (acquiring the
decoding resource; construction itself fails for an undecodable file before
any resource is held), then inside `try ... finally video_manager.release()`
starts the stream, runs detection and builds the scene list.  The returned
event list records acquisition/release of the decoding resource. -/
def detect_scenes (v : Video) (scene_detection_threshold min_scene_length : Int)
    (frame_skip : Nat) : Except RunError (List Scene) × List RES :=
  if v.decodable = false then
    (Except.error RunError.videoOpenFailure, [])
  else if v.detectRaises then
    (Except.error RunError.detectFailure, [RES.acquire, RES.release])
  else
    (Except.ok (buildScenes v.fps v.endFrame
        (detectBoundaries scene_detection_threshold min_scene_length
          (scanFrames frame_skip v.scores) 0)),
     [RES.acquire, RES.release])

/-- Whether the decoding resource is still held after the recorded events. -/
def stillOpen (events : List RES) : Bool :=
  events.foldl (fun _ e => match e with | RES.acquire => true | RES.release => false)
    false

/-- Observable steps of a batch run: a video being opened (and detection
running on it), and an ffmpeg invocation for one of its scenes. -/
inductive TraceEvent where
  | videoOpened (stem : String)
  | ffmpegInvoked (stem : String) (cmd : List String)
  deriving Repr, DecidableEq

def eventStem : TraceEvent → String
  | TraceEvent.videoOpened s => s
  | TraceEvent.ffmpegInvoked s _ => s

/-- One iteration of main's batch loop: detect_scenes on the video, then
extract_split_audio with suppress_output=True.  Returns the step's outcome
and its observable trace. -/
def processVideo (ffmpegAvailable : Bool) (output_dir : String)
    (scene_detection_threshold min_scene_length : Int) (frame_skip : Nat)
    (exitCode : Nat → Int) (v : Video) :
    Except RunError Unit × List TraceEvent :=
  match detect_scenes v scene_detection_threshold min_scene_length frame_skip with
  | (Except.error RunError.videoOpenFailure, _) =>
    (Except.error RunError.videoOpenFailure, [])
  | (Except.error e, _) =>
    (Except.error e, [TraceEvent.videoOpened v.stem])
  | (Except.ok scenes, _) =>
    match extract_split_audio ffmpegAvailable v.absPath v.stem output_dir
        scenes exitCode true with
    | Except.error e => (Except.error e, [TraceEvent.videoOpened v.stem])
    | Except.ok calls =>
      (Except.ok (),
       TraceEvent.videoOpened v.stem ::
         calls.map fun c => TraceEvent.ffmpegInvoked v.stem c.1)

/-- main's batch loop over the globbed videos.  The source has no try/except
around the loop body, so the first exception aborts the whole run. -/
def runVideos (ffmpegAvailable : Bool) (output_dir : String)
    (scene_detection_threshold min_scene_length : Int) (frame_skip : Nat)
    (exitCode : Nat → Int) : List Video → Except RunError Unit × List TraceEvent
  | [] => (Except.ok (), [])
  | v :: rest =>
    match processVideo ffmpegAvailable output_dir scene_detection_threshold
        min_scene_length frame_skip exitCode v with
    | (Except.ok _, evs) =>
      let r := runVideos ffmpegAvailable output_dir scene_detection_threshold
        min_scene_length frame_skip exitCode rest
      (r.1, evs ++ r.2)
    | (Except.error e, evs) => (Except.error e, evs)

/-- The GUI entry point main(): parses the configuration (defaults are
threshold 5, min_scene_length 100, frame_skip 5) and processes every video
found in input_dir, always passing suppress_output=True to
extract_split_audio. -/
def main (ffmpegAvailable : Bool) (input_videos : List Video)
    (output_dir : String) (scene_detection_threshold min_scene_length : Int)
    (frame_skip : Nat) (exitCode : Nat → Int) :
    Except RunError Unit × List TraceEvent :=
  runVideos ffmpegAvailable output_dir scene_detection_threshold
    min_scene_length frame_skip exitCode input_videos

/-- A decodable single-scene demo video. -/
def lectureVideo : Video := ⟨"lec", "in.mp4", true, false, [], 1000, 25⟩

/-- Demo scene lists used in concrete scenarios: three contiguous scenes of a
1000-frame, 25 fps video. -/
def demoScenes : List Scene :=
  [(⟨0, 25⟩, ⟨150, 25⟩), (⟨150, 25⟩, ⟨600, 25⟩), (⟨600, 25⟩, ⟨1000, 25⟩)]

/-- Exit-code oracle for the scenario where the second call fails. -/
def demoExitSecondFails : Nat → Int := fun i => if i == 1 then 1 else 0

/-- Exit-code oracle for the scenario where the first call fails. -/
def demoExitFirstFails : Nat → Int := fun i => if i == 0 then 1 else 0

/-- Every recorded boundary lies at least `min_scene_length` beyond the
previous `last_boundary_frame`, inductively along the whole output. -/
theorem detectBoundaries_chain (threshold msl : Int)
    (scores : List (Nat × Int)) (last : Nat) :
    List.Chain (fun a b : Nat => (a : Int) + msl ≤ (b : Int)) last
      (detectBoundaries threshold msl scores last) := by
  induction scores generalizing last with
  | nil => exact List.Chain.nil
  | cons p rest ih =>
    obtain ⟨f, s⟩ := p
    by_cases hc : s > threshold ∧ (f : Int) - (last : Int) ≥ msl
    · rw [detectBoundaries, if_pos hc]
      exact List.Chain.cons (by omega) (ih f)
    · rw [detectBoundaries, if_neg hc]
      exact ih last

/-- Every recorded boundary is a frame of the score stream whose score
exceeded the threshold. -/
theorem detectBoundaries_mem (threshold msl : Int)
    (scores : List (Nat × Int)) (last b : Nat)
    (hb : b ∈ detectBoundaries threshold msl scores last) :
    ∃ s, (b, s) ∈ scores ∧ s > threshold := by
  induction scores generalizing last with
  | nil => simp [detectBoundaries] at hb
  | cons p rest ih =>
    obtain ⟨f, s⟩ := p
    by_cases hc : s > threshold ∧ (f : Int) - (last : Int) ≥ msl
    · rw [detectBoundaries, if_pos hc] at hb
      rcases List.mem_cons.mp hb with h1 | h2
      · subst h1
        exact ⟨s, List.mem_cons_self _ _, hc.1⟩
      · obtain ⟨s2, hm, hs2⟩ := ih f h2
        exact ⟨s2, List.mem_cons_of_mem _ hm, hs2⟩
    · rw [detectBoundaries, if_neg hc] at hb
      obtain ⟨s2, hm, hs2⟩ := ih last hb
      exact ⟨s2, List.mem_cons_of_mem _ hm, hs2⟩

/-- C4: for every valid DetectionConfig (positive threshold and positive
min_scene_length) and every per-frame change-score sequence, any two
consecutive boundaries emitted by the Scene Detector are separated by at
least min_scene_length frames, and every emitted boundary was recorded only
at a frame whose score exceeded the threshold. -/
theorem C4_min_scene_separation (threshold msl : Int)
    (scores : List (Nat × Int)) (hthr : 0 < threshold) (hmsl : 0 < msl) :
    List.Chain' (fun a b : Nat => (a : Int) + msl ≤ (b : Int))
      (detectBoundaries threshold msl scores 0) ∧
    ∀ b ∈ detectBoundaries threshold msl scores 0,
      ∃ s, (b, s) ∈ scores ∧ s > threshold := by
  constructor
  · exact List.Chain'.tail
      (show List.Chain' (fun a b : Nat => (a : Int) + msl ≤ (b : Int))
          ((0 : Nat) :: detectBoundaries threshold msl scores 0) from
        detectBoundaries_chain threshold msl scores 0)
  · exact fun b hb => detectBoundaries_mem threshold msl scores 0 b hb

/-- C4 at a concrete input: threshold 5, min_scene_length 100, change events
at frames 150, 600 and 620 (the last suppressed by the length rule). -/
theorem C4_min_scene_separation_witness :
    List.Chain' (fun a b : Nat => (a : Int) + 100 ≤ (b : Int))
      (detectBoundaries 5 100 [(150, 27), (600, 40), (620, 90)] 0) ∧
    ∀ b ∈ detectBoundaries 5 100 [(150, 27), (600, 40), (620, 90)] 0,
      ∃ s, (b, s) ∈ [((150 : Nat), (27 : Int)), (600, 40), (620, 90)] ∧
        s > 5 :=
  C4_min_scene_separation 5 100 [(150, 27), (600, 40), (620, 90)]
    (by decide) (by decide)

theorem pairUp_length (l : List Nat) : (pairUp l).length = l.length - 1 := by
  match l with
  | [] => simp [pairUp]
  | [a] => simp [pairUp]
  | a :: b :: rest =>
    have ih := pairUp_length (b :: rest)
    simp only [pairUp, List.length_cons] at ih ⊢
    omega

theorem pairUp_chain (l : List Nat) :
    List.Chain' (fun p q : Nat × Nat => p.2 = q.1) (pairUp l) := by
  match l with
  | [] => simp [pairUp]
  | [a] => simp [pairUp]
  | a :: b :: rest =>
    have ih := pairUp_chain (b :: rest)
    cases rest with
    | nil => simp [pairUp]
    | cons c rest2 =>
      rw [show pairUp (a :: b :: c :: rest2)
            = (a, b) :: (b, c) :: pairUp (c :: rest2) from rfl]
      rw [show pairUp (b :: c :: rest2) = (b, c) :: pairUp (c :: rest2)
            from rfl] at ih
      exact List.chain'_cons.mpr ⟨rfl, ih⟩

theorem pairUp_lt (l : List Nat) (h : List.Chain' (fun a b : Nat => a < b) l) :
    ∀ p ∈ pairUp l, p.1 < p.2 := by
  match l with
  | [] => simp [pairUp]
  | [a] => simp [pairUp]
  | a :: b :: rest =>
    intro p hp
    rw [show pairUp (a :: b :: rest) = (a, b) :: pairUp (b :: rest) from rfl]
      at hp
    rcases List.mem_cons.mp hp with h1 | h2
    · rw [h1]
      exact (List.chain'_cons.mp h).1
    · exact pairUp_lt (b :: rest) (List.chain'_cons.mp h).2 p h2

theorem pairUp_last_snd (l : List Nat) (a b : Nat) :
    (pairUp (a :: (l ++ [b]))).getLast?.map Prod.snd = some b := by
  induction l generalizing a with
  | nil => simp [pairUp]
  | cons c l2 ih =>
    have hne : pairUp (c :: (l2 ++ [b])) ≠ [] := by
      intro hcon
      have hlen := pairUp_length (c :: (l2 ++ [b]))
      rw [hcon] at hlen
      simp at hlen
    obtain ⟨y, T2, hT⟩ := List.exists_cons_of_ne_nil hne
    show ((a, c) :: pairUp (c :: (l2 ++ [b]))).getLast?.map Prod.snd = some b
    rw [hT, List.getLast?_cons_cons, ← hT]
    exact ih c

/-- A Chain of strict inequalities can be closed off with a strict upper
bound of all its elements. -/
theorem chain_append_lt (e : Nat) :
    ∀ (l : List Nat) (a : Nat), List.Chain (fun x y : Nat => x < y) a l →
      a < e → (∀ x ∈ l, x < e) →
      List.Chain (fun x y : Nat => x < y) a (l ++ [e])
  | [], _, _, hae, _ => List.Chain.cons hae List.Chain.nil
  | b :: t, a, h, _, hall => by
    cases h with
    | cons hab ht =>
      exact List.Chain.cons hab
        (chain_append_lt e t b ht (hall b (List.mem_cons_self _ _))
          (fun x hx => hall x (List.mem_cons_of_mem _ hx)))

theorem buildScenes_length (fps endFrame : Nat) (bs : List Nat) :
    (buildScenes fps endFrame bs).length = bs.length + 1 := by
  simp only [buildScenes, boundaryList, List.length_map, pairUp_length,
    List.length_cons, List.length_append, List.length_nil]
  omega

theorem buildScenes_head (fps endFrame : Nat) (bs : List Nat) :
    (buildScenes fps endFrame bs).head?.map (fun s : Scene => s.1.frames)
      = some 0 := by
  cases bs with
  | nil => simp [buildScenes, boundaryList, pairUp]
  | cons b bs2 => simp [buildScenes, boundaryList, pairUp]

theorem buildScenes_last (fps endFrame : Nat) (bs : List Nat) :
    (buildScenes fps endFrame bs).getLast?.map (fun s : Scene => s.2.frames)
      = some endFrame := by
  have h := pairUp_last_snd bs 0 endFrame
  rw [buildScenes, boundaryList,
    List.getLast?_map (fun p : Nat × Nat =>
      ((⟨p.1, fps⟩ : FrameTimecode), (⟨p.2, fps⟩ : FrameTimecode)))]
  rcases hx : (pairUp (0 :: (bs ++ [endFrame]))).getLast? with _ | p
  · rw [hx] at h
    simp at h
  · rw [hx] at h
    simp at h ⊢
    exact h

theorem contiguousOk_iff (l : List Scene) :
    contiguousOk l = true
      ↔ List.Chain' (fun s1 s2 : Scene => s1.2 = s2.1) l := by
  match l with
  | [] => simp [contiguousOk]
  | [s] => simp [contiguousOk]
  | s1 :: s2 :: rest =>
    have ih := contiguousOk_iff (s2 :: rest)
    rw [show contiguousOk (s1 :: s2 :: rest)
          = ((s1.2 == s2.1) && contiguousOk (s2 :: rest)) from rfl,
      List.chain'_cons, Bool.and_eq_true, beq_iff_eq, ih]

theorem buildScenes_contiguous (fps endFrame : Nat) (bs : List Nat) :
    List.Chain' (fun s1 s2 : Scene => s1.2 = s2.1)
      (buildScenes fps endFrame bs) := by
  rw [buildScenes, List.chain'_map]
  refine (pairUp_chain (boundaryList endFrame bs)).imp ?_
  intro p q hpq
  show ((⟨p.2, fps⟩ : FrameTimecode) = ⟨q.1, fps⟩)
  rw [hpq]

theorem buildScenes_spans (fps endFrame : Nat) (bs : List Nat) :
    spansOk endFrame (buildScenes fps endFrame bs) = true := by
  have hh := buildScenes_head fps endFrame bs
  have hl := buildScenes_last fps endFrame bs
  simp only [spansOk]
  rcases hx : (buildScenes fps endFrame bs).head? with _ | s0
  · rw [hx] at hh
    simp at hh
  · rcases hy : (buildScenes fps endFrame bs).getLast? with _ | s1
    · rw [hy] at hl
      simp at hl
    · rw [hx] at hh
      rw [hy] at hl
      simp at hh hl
      simp [hh, hl]

theorem boundaryList_chain_lt (endFrame : Nat) (threshold msl : Int)
    (scores : List (Nat × Int)) (hmsl : 1 ≤ msl)
    (hend : ∀ p ∈ scores, p.1 < endFrame) (h0 : 0 < endFrame) :
    List.Chain' (fun a b : Nat => a < b)
      (boundaryList endFrame (detectBoundaries threshold msl scores 0)) := by
  have hchain := detectBoundaries_chain threshold msl scores 0
  have hlt : List.Chain (fun a b : Nat => a < b) 0
      (detectBoundaries threshold msl scores 0) :=
    hchain.imp (fun a b hab => by omega)
  have hmem : ∀ x ∈ detectBoundaries threshold msl scores 0, x < endFrame := by
    intro x hx
    obtain ⟨s, hm, _⟩ := detectBoundaries_mem threshold msl scores 0 x hx
    exact hend (x, s) hm
  show List.Chain (fun a b : Nat => a < b) 0
    (detectBoundaries threshold msl scores 0 ++ [endFrame])
  exact chain_append_lt endFrame _ 0 hlt h0 hmem

/-- C3: every SceneList produced by the detection/segment-building pipeline
is contiguous and non-overlapping (each scene's end equals the next scene's
start, and each scene has start strictly before end), starts at the video
start (frame 0), ends at the video's final frame, and the invariant is
checked before the SceneList is returned — a violation yields
InvariantViolation rather than silent repair. -/
theorem C3_scene_list_invariant (fps endFrame : Nat) (threshold msl : Int)
    (scores : List (Nat × Int)) (hmsl : 1 ≤ msl)
    (hend : ∀ p ∈ scores, p.1 < endFrame) (h0 : 0 < endFrame) :
    ∃ scenes,
      segmentBuild fps endFrame (detectBoundaries threshold msl scores 0)
        = Except.ok scenes ∧
      List.Chain' (fun s1 s2 : Scene => s1.2 = s2.1) scenes ∧
      (∀ s ∈ scenes, s.1.frames < s.2.frames) ∧
      scenes.head?.map (fun s : Scene => s.1.frames) = some 0 ∧
      scenes.getLast?.map (fun s : Scene => s.2.frames) = some endFrame ∧
      ∀ other : List Scene,
        (contiguousOk other && spansOk endFrame other) = false →
          checkScenes endFrame other
            = Except.error SegmentFault.invariantViolation := by
  refine ⟨buildScenes fps endFrame (detectBoundaries threshold msl scores 0),
    ?_, ?_, ?_, ?_, ?_, ?_⟩
  · have hcont := (contiguousOk_iff
        (buildScenes fps endFrame (detectBoundaries threshold msl scores 0))).mpr
      (buildScenes_contiguous fps endFrame
        (detectBoundaries threshold msl scores 0))
    have hspan := buildScenes_spans fps endFrame
      (detectBoundaries threshold msl scores 0)
    rw [segmentBuild, checkScenes,
      if_pos (by rw [Bool.and_eq_true]; exact ⟨hcont, hspan⟩)]
  · exact buildScenes_contiguous fps endFrame _
  · intro s hs
    rw [buildScenes] at hs
    obtain ⟨p, hp, hps⟩ := List.mem_map.mp hs
    have := pairUp_lt (boundaryList endFrame
        (detectBoundaries threshold msl scores 0))
      (boundaryList_chain_lt endFrame threshold msl scores hmsl hend h0) p hp
    rw [← hps]
    exact this
  · exact buildScenes_head fps endFrame _
  · exact buildScenes_last fps endFrame _
  · intro other hother
    rw [checkScenes, if_neg (by simp [hother])]

/-- C3 at a concrete input: a 1000-frame 25 fps video with change events at
frames 150 and 600 yields the checked three-scene list. -/
theorem C3_scene_list_invariant_witness :
    ∃ scenes,
      segmentBuild 25 1000 (detectBoundaries 5 100 [(150, 27), (600, 40)] 0)
        = Except.ok scenes ∧
      List.Chain' (fun s1 s2 : Scene => s1.2 = s2.1) scenes ∧
      (∀ s ∈ scenes, s.1.frames < s.2.frames) ∧
      scenes.head?.map (fun s : Scene => s.1.frames) = some 0 ∧
      scenes.getLast?.map (fun s : Scene => s.2.frames) = some 1000 ∧
      ∀ other : List Scene,
        (contiguousOk other && spansOk 1000 other) = false →
          checkScenes 1000 other
            = Except.error SegmentFault.invariantViolation :=
  C3_scene_list_invariant 25 1000 5 100 [(150, 27), (600, 40)]
    (by decide) (by decide) (by decide)

theorem extractLoop_length (video_abs stem output_dir : String)
    (suppress : Bool) (exitCode : Nat → Int) (scenes : List Scene) (k : Nat) :
    (extractLoop video_abs stem output_dir suppress exitCode scenes k).length
      = scenes.length := by
  induction scenes generalizing k with
  | nil => simp [extractLoop]
  | cons sc rest ih =>
    simp [extractLoop, ih (k + 1)]

theorem extractLoop_get (video_abs stem output_dir : String) (suppress : Bool)
    (exitCode : Nat → Int) (scenes : List Scene) (k i : Nat)
    (h : i < scenes.length)
    (h2 : i < (extractLoop video_abs stem output_dir suppress exitCode
      scenes k).length) :
    (extractLoop video_abs stem output_dir suppress exitCode scenes k).get
        ⟨i, h2⟩
      = (buildCallList video_abs stem output_dir suppress (k + i)
          (scenes.get ⟨i, h⟩), exitCode (k + i)) := by
  induction scenes generalizing k i with
  | nil => simp at h
  | cons sc rest ih =>
    cases i with
    | zero => simp [extractLoop]
    | succ j =>
      have hj : j < rest.length := by simpa using h
      have hj2 : j < (extractLoop video_abs stem output_dir suppress exitCode
          rest (k + 1)).length := by
        rw [extractLoop_length]
        exact hj
      have hrec := ih (k + 1) j hj hj2
      show (extractLoop video_abs stem output_dir suppress exitCode rest
          (k + 1)).get ⟨j, hj2⟩
        = (buildCallList video_abs stem output_dir suppress (k + (j + 1))
            ((sc :: rest).get ⟨j + 1, h⟩), exitCode (k + (j + 1)))
      rw [hrec, show k + 1 + j = k + (j + 1) from by omega]
      rfl

/-- C6: for each scene, in order, extract_split_audio invokes ffmpeg with the
arguments `ffmpeg [-v quiet|error] -y -ss <start> -i <input> -strict -2 -t
<duration> <output>`, where the duration timecode is end − start and the
output path is `<output_dir>/<video_stem>/<video_stem>_<scene_number>.mp3`
with scene_number the 1-based index of the scene. -/
theorem C6_ffmpeg_invocation (video_abs stem output_dir : String)
    (scenes : List Scene) (exitCode : Nat → Int) (suppress : Bool)
    (i : Nat) (h : i < scenes.length) :
    ∃ calls,
      extract_split_audio true video_abs stem output_dir scenes exitCode
          suppress = Except.ok calls ∧
      calls.length = scenes.length ∧
      ∀ h2 : i < calls.length,
        (calls.get ⟨i, h2⟩).1
          = ["ffmpeg"]
            ++ (if suppress then ["-v", "quiet"]
                else if i > 0 then ["-v", "error"] else [])
            ++ ["-y", "-ss", (scenes.get ⟨i, h⟩).1.get_timecode, "-i",
                video_abs]
            ++ ["-strict", "-2", "-t",
                ((scenes.get ⟨i, h⟩).2.sub
                  (scenes.get ⟨i, h⟩).1).get_timecode,
                output_dir ++ "/" ++ stem ++ "/" ++ stem ++ "_"
                  ++ toString (i + 1) ++ ".mp3"] := by
  refine ⟨extractLoop video_abs stem output_dir suppress exitCode scenes 0,
    rfl, extractLoop_length video_abs stem output_dir suppress exitCode
      scenes 0, ?_⟩
  intro h2
  rw [extractLoop_get video_abs stem output_dir suppress exitCode scenes 0 i
    h h2]
  rw [show (0 : Nat) + i = i from by omega]
  rfl

/-- C6 at a concrete input: the second scene of a two-scene list at 25 fps,
suppressed mode. -/
theorem C6_ffmpeg_invocation_witness :
    ∃ calls,
      extract_split_audio true "in.mp4" "lec" "out"
          [((⟨0, 25⟩ : FrameTimecode), (⟨150, 25⟩ : FrameTimecode)),
           ((⟨150, 25⟩ : FrameTimecode), (⟨600, 25⟩ : FrameTimecode))]
          (fun _ => 0) true = Except.ok calls ∧
      calls.length
        = ([((⟨0, 25⟩ : FrameTimecode), (⟨150, 25⟩ : FrameTimecode)),
            ((⟨150, 25⟩ : FrameTimecode), (⟨600, 25⟩ : FrameTimecode))] :
            List Scene).length ∧
      ∀ h2 : 1 < calls.length,
        (calls.get ⟨1, h2⟩).1
          = ["ffmpeg"]
            ++ (if true then ["-v", "quiet"]
                else if 1 > 0 then ["-v", "error"] else [])
            ++ ["-y", "-ss",
                (([((⟨0, 25⟩ : FrameTimecode), (⟨150, 25⟩ : FrameTimecode)),
                   ((⟨150, 25⟩ : FrameTimecode),
                     (⟨600, 25⟩ : FrameTimecode))] : List Scene).get
                  ⟨1, by decide⟩).1.get_timecode, "-i", "in.mp4"]
            ++ ["-strict", "-2", "-t",
                ((([((⟨0, 25⟩ : FrameTimecode), (⟨150, 25⟩ : FrameTimecode)),
                    ((⟨150, 25⟩ : FrameTimecode),
                      (⟨600, 25⟩ : FrameTimecode))] : List Scene).get
                    ⟨1, by decide⟩).2.sub
                  (([((⟨0, 25⟩ : FrameTimecode), (⟨150, 25⟩ : FrameTimecode)),
                     ((⟨150, 25⟩ : FrameTimecode),
                       (⟨600, 25⟩ : FrameTimecode))] : List Scene).get
                    ⟨1, by decide⟩).1).get_timecode,
                "out" ++ "/" ++ "lec" ++ "/" ++ "lec" ++ "_"
                  ++ toString (1 + 1) ++ ".mp3"] :=
  C6_ffmpeg_invocation "in.mp4" "lec" "out"
    [((⟨0, 25⟩ : FrameTimecode), (⟨150, 25⟩ : FrameTimecode)),
     ((⟨150, 25⟩ : FrameTimecode), (⟨600, 25⟩ : FrameTimecode))]
    (fun _ => 0) true 1 (by decide)

/-- C7: in suppressed mode a nonzero exit code from one segment's ffmpeg
invocation does not stop processing — for every scene list and every
exit-code oracle the run completes without aborting and issues exactly one
invocation per scene; concretely, for the 3-scene list where the second call
exits nonzero, segments 1 and 3 still produce their output files. -/
theorem C7_suppressed_mode_tolerates_failures (video_abs stem output_dir :
    String) (scenes : List Scene) (exitCode : Nat → Int) :
    (∃ calls,
      extract_split_audio true video_abs stem output_dir scenes exitCode true
          = Except.ok calls ∧
      calls.length = scenes.length) ∧
    (∃ calls,
      extract_split_audio true "in.mp4" "lec" "out" demoScenes
          demoExitSecondFails true = Except.ok calls ∧
      filesProduced calls = ["out/lec/lec_1.mp3", "out/lec/lec_3.mp3"]) := by
  constructor
  · exact ⟨extractLoop video_abs stem output_dir true exitCode scenes 0, rfl,
      extractLoop_length video_abs stem output_dir true exitCode scenes 0⟩
  · exact ⟨extractLoop "in.mp4" "lec" "out" true demoExitSecondFails
      demoScenes 0, rfl, by decide⟩

/-- C1 (code bug): in verbose (non-suppressed) mode the source's fail-fast
`if ret_val != 0: break` is commented out, contradicting the in-code comment
that promises to break the loop after a failing first call.  On a 3-scene
list whose first ffmpeg call exits 1, the loop still issues all three
invocations (exit codes 1, 0, 0) instead of stopping. -/
theorem C1_verbose_mode_does_not_stop :
    ∃ calls,
      extract_split_audio true "in.mp4" "lec" "out" demoScenes
          demoExitFirstFails false = Except.ok calls ∧
      calls.length = 3 ∧
      calls.map Prod.snd = [1, 0, 0] :=
  ⟨extractLoop "in.mp4" "lec" "out" false demoExitFirstFails demoScenes 0,
    rfl, by decide, by decide⟩

/-- C8: detect_scenes releases the video-decoding resource on every exit
path — construction failure (nothing was acquired), exception during
detection (the finally-block releases), and normal completion — so it never
terminates with the video source still open, and acquisitions and releases
are balanced. -/
theorem C8_detect_scenes_releases (v : Video) (threshold msl : Int)
    (frame_skip : Nat) :
    stillOpen (detect_scenes v threshold msl frame_skip).2 = false ∧
    (detect_scenes v threshold msl frame_skip).2.count RES.acquire
      = (detect_scenes v threshold msl frame_skip).2.count RES.release := by
  rw [detect_scenes]
  by_cases h1 : v.decodable = false
  · rw [if_pos h1]
    exact ⟨rfl, rfl⟩
  · rw [if_neg h1]
    by_cases h2 : v.detectRaises
    · rw [if_pos h2]
      exact ⟨rfl, rfl⟩
    · rw [if_neg h2]
      exact ⟨rfl, rfl⟩

/-- A decodable, cleanly-detecting video is processed successfully when
ffmpeg is available, and every event of its trace carries its stem. -/
theorem processVideo_good (output_dir : String)
    (threshold msl : Int) (frame_skip : Nat) (exitCode : Nat → Int)
    (v : Video) (hd : v.decodable = true) (hr : v.detectRaises = false) :
    ∃ evs,
      processVideo true output_dir threshold msl frame_skip exitCode v
        = (Except.ok (), evs) ∧
      ∀ e ∈ evs, eventStem e = v.stem := by
  refine ⟨TraceEvent.videoOpened v.stem ::
      (extractLoop v.absPath v.stem output_dir true exitCode
        (buildScenes v.fps v.endFrame
          (detectBoundaries threshold msl (scanFrames frame_skip v.scores) 0))
        0).map (fun c => TraceEvent.ffmpegInvoked v.stem c.1), ?_, ?_⟩
  · simp [processVideo, detect_scenes, extract_split_audio, hd, hr]
  · intro e he
    rcases List.mem_cons.mp he with h1 | h2
    · rw [h1]
      rfl
    · obtain ⟨c, _, hc⟩ := List.mem_map.mp h2
      rw [← hc]
      rfl

theorem extractLoop_cmd_prefix (video_abs stem output_dir : String)
    (exitCode : Nat → Int) (scenes : List Scene) (k : Nat) :
    ∀ c ∈ extractLoop video_abs stem output_dir true exitCode scenes k,
      c.1.take 3 = ["ffmpeg", "-v", "quiet"] := by
  induction scenes generalizing k with
  | nil => simp [extractLoop]
  | cons sc rest ih =>
    intro c hc
    rcases List.mem_cons.mp hc with h1 | h2
    · rw [h1]
      rfl
    · exact ih (k + 1) c h2

theorem processVideo_cmd_prefix (ffmpegOk : Bool) (output_dir : String)
    (threshold msl : Int) (frame_skip : Nat) (exitCode : Nat → Int)
    (v : Video) (stem2 : String) (cmd : List String)
    (hmem : TraceEvent.ffmpegInvoked stem2 cmd
      ∈ (processVideo ffmpegOk output_dir threshold msl frame_skip exitCode
          v).2) :
    cmd.take 3 = ["ffmpeg", "-v", "quiet"] := by
  by_cases h1 : v.decodable = false
  · rw [processVideo, detect_scenes, if_pos h1] at hmem
    simp at hmem
  · by_cases h2 : v.detectRaises
    · rw [processVideo, detect_scenes, if_neg h1, if_pos h2] at hmem
      simp at hmem
    · rw [processVideo, detect_scenes, if_neg h1, if_neg h2] at hmem
      cases hff : ffmpegOk with
      | false =>
        rw [hff] at hmem
        simp [extract_split_audio] at hmem
      | true =>
        rw [hff] at hmem
        simp only [extract_split_audio, if_neg (by simp : ¬(true = false))]
          at hmem
        rcases List.mem_cons.mp hmem with hA | hB
        · cases hA
        · obtain ⟨c, hc, hce⟩ := List.mem_map.mp hB
          have : cmd = c.1 := by
            cases hce
            rfl
          rw [this]
          exact extractLoop_cmd_prefix v.absPath v.stem output_dir exitCode
            _ 0 c hc

theorem runVideos_cmd_prefix (ffmpegOk : Bool) (output_dir : String)
    (threshold msl : Int) (frame_skip : Nat) (exitCode : Nat → Int)
    (videos : List Video) (stem2 : String) (cmd : List String)
    (hmem : TraceEvent.ffmpegInvoked stem2 cmd
      ∈ (runVideos ffmpegOk output_dir threshold msl frame_skip exitCode
          videos).2) :
    cmd.take 3 = ["ffmpeg", "-v", "quiet"] := by
  induction videos with
  | nil => simp [runVideos] at hmem
  | cons v rest ih =>
    rcases hpv : processVideo ffmpegOk output_dir threshold msl frame_skip
      exitCode v with ⟨r, evs⟩
    rw [runVideos, hpv] at hmem
    cases r with
    | ok u =>
      simp only [List.mem_append] at hmem
      rcases hmem with hA | hB
      · exact processVideo_cmd_prefix ffmpegOk output_dir threshold msl
          frame_skip exitCode v stem2 cmd (by rw [hpv]; exact hA)
      · exact ih hB
    | error e =>
      exact processVideo_cmd_prefix ffmpegOk output_dir threshold msl
        frame_skip exitCode v stem2 cmd (by rw [hpv]; exact hmem)

/-- C10 (implicit): main always calls extract_split_audio with
suppress_output=True (also the parameter's default in the source), so every
ffmpeg invocation observable in a batch run carries `-v quiet` — the verbose
(non-suppressed) path is unreachable from the entry point and can only be
exercised by calling extract_split_audio directly with
suppress_output=False. -/
theorem C10_main_always_suppressed (ffmpegOk : Bool) (videos : List Video)
    (output_dir : String) (threshold msl : Int) (frame_skip : Nat)
    (exitCode : Nat → Int) (stem2 : String) (cmd : List String)
    (hmem : TraceEvent.ffmpegInvoked stem2 cmd
      ∈ (main ffmpegOk videos output_dir threshold msl frame_skip
          exitCode).2) :
    cmd.take 3 = ["ffmpeg", "-v", "quiet"] :=
  runVideos_cmd_prefix ffmpegOk output_dir threshold msl frame_skip exitCode
    videos stem2 cmd hmem

/-- C10 at a concrete input: one single-scene video, default configuration;
its only ffmpeg invocation starts with `ffmpeg -v quiet`. -/
theorem C10_main_always_suppressed_witness :
    (["ffmpeg", "-v", "quiet", "-y", "-ss", "00:00:00.000", "-i", "in.mp4",
      "-strict", "-2", "-t", "00:00:40.000", "out/lec/lec_1.mp3"] :
      List String).take 3 = ["ffmpeg", "-v", "quiet"] :=
  C10_main_always_suppressed true [lectureVideo] "out" 5 100 5 (fun _ => 0)
    "lec"
    ["ffmpeg", "-v", "quiet", "-y", "-ss", "00:00:00.000", "-i", "in.mp4",
     "-strict", "-2", "-t", "00:00:40.000", "out/lec/lec_1.mp3"]
    (by decide)

/-- C2 counterexample: with ffmpeg absent and a single decodable video, the
run does abort with the tool-missing error — but only after the video has
been opened and scene detection has run on it, contradicting "before any
video is opened and before any scene detection". -/
theorem C2_counterexample :
    (main false [lectureVideo] "out" 5 100 5 (fun _ => 0)).1
      = Except.error RunError.ffmpegMissing ∧
    TraceEvent.videoOpened "lec"
      ∈ (main false [lectureVideo] "out" 5 100 5 (fun _ => 0)).2 :=
  ⟨rfl, by decide⟩

/-- C2 amended: when ffmpeg is unavailable the run aborts with the
tool-missing error raised at the start of extraction of the first video,
before any per-segment ffmpeg invocation — but after scene detection has
already run on that first video, because the availability check lives inside
extract_split_audio rather than before the batch loop. -/
theorem C2_tool_missing_aborts_before_extraction (videos : List Video)
    (v : Video) (output_dir : String) (threshold msl : Int)
    (frame_skip : Nat) (exitCode : Nat → Int) (hd : v.decodable = true)
    (hr : v.detectRaises = false) :
    (main false (v :: videos) output_dir threshold msl frame_skip exitCode).1
      = Except.error RunError.ffmpegMissing ∧
    ∀ stem2 cmd, TraceEvent.ffmpegInvoked stem2 cmd
      ∉ (main false (v :: videos) output_dir threshold msl frame_skip
          exitCode).2 := by
  have hpv : processVideo false output_dir threshold msl frame_skip exitCode v
      = (Except.error RunError.ffmpegMissing,
         [TraceEvent.videoOpened v.stem]) := by
    simp [processVideo, detect_scenes, extract_split_audio, hd, hr]
  rw [main, runVideos, hpv]
  refine ⟨rfl, ?_⟩
  intro stem2 cmd h
  simp at h

/-- C2 amended claim at a concrete input. -/
theorem C2_tool_missing_aborts_before_extraction_witness :
    (main false [lectureVideo] "out" 7 100 5 (fun _ => 0)).1
      = Except.error RunError.ffmpegMissing ∧
    ∀ stem2 cmd, TraceEvent.ffmpegInvoked stem2 cmd
      ∉ (main false [lectureVideo] "out" 7 100 5 (fun _ => 0)).2 :=
  C2_tool_missing_aborts_before_extraction [] lectureVideo "out" 7 100 5
    (fun _ => 0) rfl rfl

/-- Batch videos used in the C5 scenario: a good video, an undecodable one,
then another good one. -/
def goodA : Video := ⟨"vidA", "A.mp4", true, false, [], 1000, 25⟩

def badB : Video := ⟨"vidB", "B.mp4", false, false, [], 1000, 25⟩

def goodC : Video := ⟨"vidC", "C.mp4", true, false, [], 1000, 25⟩

/-- C5 counterexample: a failure confined to the second of three videos is
NOT caught at the batch-loop boundary — the run aborts with
VideoOpenError and the third video is never touched. -/
theorem C5_counterexample :
    (main true [goodA, badB, goodC] "out" 5 100 5 (fun _ => 0)).1
      = Except.error RunError.videoOpenFailure ∧
    ∀ e ∈ (main true [goodA, badB, goodC] "out" 5 100 5 (fun _ => 0)).2,
      eventStem e ≠ "vidC" :=
  ⟨rfl, by decide⟩

/-- After any successfully processed prefix, an undecodable video aborts the
whole batch loop; every trace event belongs to the prefix. -/
theorem runVideos_abort (output_dir : String) (threshold msl : Int)
    (frame_skip : Nat) (exitCode : Nat → Int) (bad : Video)
    (post : List Video) (hbad : bad.decodable = false) :
    ∀ pre : List Video,
      (∀ v ∈ pre, v.decodable = true ∧ v.detectRaises = false) →
      (runVideos true output_dir threshold msl frame_skip exitCode
          (pre ++ bad :: post)).1 = Except.error RunError.videoOpenFailure ∧
      ∀ e ∈ (runVideos true output_dir threshold msl frame_skip exitCode
          (pre ++ bad :: post)).2, eventStem e ∈ pre.map Video.stem
  | [], _ => by
    have hpb : processVideo true output_dir threshold msl frame_skip exitCode
        bad = (Except.error RunError.videoOpenFailure, []) := by
      rw [processVideo, detect_scenes, if_pos hbad]
    rw [List.nil_append, runVideos, hpb]
    refine ⟨rfl, ?_⟩
    intro e he
    simp at he
  | v :: pre2, hpre => by
    obtain ⟨evs, hpv, hstems⟩ := processVideo_good output_dir threshold msl
      frame_skip exitCode v (hpre v (List.mem_cons_self _ _)).1
      (hpre v (List.mem_cons_self _ _)).2
    have ih := runVideos_abort output_dir threshold msl frame_skip exitCode
      bad post hbad pre2 (fun w hw => hpre w (List.mem_cons_of_mem _ hw))
    rw [List.cons_append, runVideos, hpv]
    refine ⟨ih.1, ?_⟩
    intro e he
    have he2 : e ∈ evs ++ (runVideos true output_dir threshold msl frame_skip
        exitCode (pre2 ++ bad :: post)).2 := he
    rw [List.map_cons]
    rcases List.mem_append.mp he2 with hA | hB
    · exact List.mem_cons.mpr (Or.inl (hstems e hA))
    · exact List.mem_cons.mpr (Or.inr (ih.2 e hB))

/-- C5 amended: per-video failures are NOT caught at the batch-loop
boundary — an undecodable video aborts the entire run with VideoOpenError
and none of the remaining videos is processed (every trace event belongs to
the videos before the failing one). -/
theorem C5_video_failure_aborts_batch (pre : List Video) (bad : Video)
    (post : List Video) (output_dir : String) (threshold msl : Int)
    (frame_skip : Nat) (exitCode : Nat → Int)
    (hpre : ∀ v ∈ pre, v.decodable = true ∧ v.detectRaises = false)
    (hbad : bad.decodable = false) :
    (main true (pre ++ bad :: post) output_dir threshold msl frame_skip
        exitCode).1 = Except.error RunError.videoOpenFailure ∧
    ∀ e ∈ (main true (pre ++ bad :: post) output_dir threshold msl frame_skip
        exitCode).2, eventStem e ∈ pre.map Video.stem :=
  runVideos_abort output_dir threshold msl frame_skip exitCode bad post hbad
    pre hpre

/-- C5 amended claim at a concrete input. -/
theorem C5_video_failure_aborts_batch_witness :
    (main true ([goodA] ++ badB :: [goodC]) "out" 5 100 5 (fun _ => 0)).1
      = Except.error RunError.videoOpenFailure ∧
    ∀ e ∈ (main true ([goodA] ++ badB :: [goodC]) "out" 5 100 5
        (fun _ => 0)).2, eventStem e ∈ [goodA].map Video.stem :=
  C5_video_failure_aborts_batch [goodA] badB [goodC] "out" 5 100 5
    (fun _ => 0) (by decide) rfl

/-- C9 counterexample: with a non-positive scene_detection_threshold (-1)
the run does not raise any ConfigError — it completes successfully, and
detection runs on the video with the malformed configuration. -/
theorem C9_counterexample :
    (main true [lectureVideo] "out" (-1) 100 5 (fun _ => 0)).1
      = Except.ok () ∧
    TraceEvent.videoOpened "lec"
      ∈ (main true [lectureVideo] "out" (-1) 100 5 (fun _ => 0)).2 :=
  ⟨rfl, by decide⟩

/-- With ffmpeg available and all videos decodable, the batch loop completes
successfully regardless of the configuration values. -/
theorem runVideos_ok (output_dir : String) (threshold msl : Int)
    (frame_skip : Nat) (exitCode : Nat → Int) :
    ∀ videos : List Video,
      (∀ v ∈ videos, v.decodable = true ∧ v.detectRaises = false) →
      (runVideos true output_dir threshold msl frame_skip exitCode videos).1
        = Except.ok ()
  | [], _ => rfl
  | v :: rest, h => by
    obtain ⟨evs, hpv, _⟩ := processVideo_good output_dir threshold msl
      frame_skip exitCode v (h v (List.mem_cons_self _ _)).1
      (h v (List.mem_cons_self _ _)).2
    rw [runVideos, hpv]
    exact runVideos_ok output_dir threshold msl frame_skip exitCode rest
      (fun w hw => h w (List.mem_cons_of_mem _ hw))

/-- C9 amended: the code performs no configuration validation — every
integer threshold and min_scene_length (including non-positive values) is
accepted, and a run over decodable videos with ffmpeg available completes
successfully; no ConfigError exists anywhere in the pipeline. -/
theorem C9_no_config_validation (videos : List Video) (output_dir : String)
    (threshold msl : Int) (frame_skip : Nat) (exitCode : Nat → Int)
    (h : ∀ v ∈ videos, v.decodable = true ∧ v.detectRaises = false) :
    (main true videos output_dir threshold msl frame_skip exitCode).1
      = Except.ok () :=
  runVideos_ok output_dir threshold msl frame_skip exitCode videos h

/-- C9 amended claim at a concrete input: threshold -5 and
min_scene_length 0, both invalid per the spec, are accepted. -/
theorem C9_no_config_validation_witness :
    (main true [lectureVideo] "out" (-5) 0 5 (fun _ => 0)).1
      = Except.ok () :=
  C9_no_config_validation [lectureVideo] "out" (-5) 0 5 (fun _ => 0)
    (by decide)

end LectureSplit
